import Mathlib

/-!
Shallow embedding of the certspotter monitor package (Go) for verification
of its health-check, notification and state-serialization behavior.

Sources embedded:
  - src/monitor/healthcheck.go   (healthCheckLog, StaleSTHInfo, BacklogInfo, ...)
  - src/unnamed/part_004         (the older revision of healthcheck.go)
  - src/monitor/notify.go        (FilesystemState.notify, sendEmail, execScript,
                                  stdout mutex discipline)
  - the LogState struct and StateProvider interface (monitor package)

Go conventions used throughout the embedding:
  - `time.Time` is modelled as `Int` (an instant on a linear clock); the Go
    zero time is `0`, `t.IsZero()` is `t = 0`, and `time.Since(t)` at clock
    instant `now` is `now - t`.  `time.Duration` is likewise `Int`.
  - Go pointers that the source annotates or treats as possibly nil are
    modelled as `Option`; fallible Go functions returning `error` are
    modelled with `Except String` / `Option String` (`none` = nil error).
  - `uint64` values are modelled as `Nat`; where Go wraparound subtraction
    matters it is made explicit with `sub64`.
-/

/-- An instant of Go wall-clock time (time.Time); 0 is the Go zero time. -/
abbrev Time := Int

/-- A Go time.Duration. -/
abbrev Duration := Int

/-- Go uint64 subtraction `a - b`, i.e. subtraction modulo 2^64 (operands are
assumed already reduced, as Go uint64 values always are). -/
def sub64 (a b : Nat) : Nat := (a + 2 ^ 64 - b % 2 ^ 64) % 2 ^ 64

/-- An opaque cryptographic hash value (e.g. a sha256 root hash), identified
by its textual (base64) form. -/
structure Hash where
  val : String
deriving DecidableEq, Repr

/-- Modelled from the spec: `SignedTreeHead (STH). (tree_size: u64,
timestamp_ms: u64, root_hash: [32]byte, signature)` — the cttypes/ct package
is not under src/.  Only the fields are needed here; signature verification
is out of scope for the embedded claims. -/
structure SignedTreeHead where
  TreeSize : Nat
  Timestamp : Nat
  RootHash : Hash
  Signature : String
deriving DecidableEq, Repr

/-- A stored (as-yet-unverified) STH as kept by the monitor package: the
embedded SignedTreeHead together with the time it was stored (the monitor
type `StoredSTH` embeds `cttypes.SignedTreeHead` and adds `StoredAt`; its
defining file is not under src/, but healthcheck.go reads both the embedded
`TreeSize` and `StoredAt` fields). -/
structure StoredSTH where
  sth : SignedTreeHead
  StoredAt : Time
deriving DecidableEq, Repr

/-- The tree size committed to by a stored STH (promoted field of the
embedded SignedTreeHead). -/
def StoredSTH.TreeSize (s : StoredSTH) : Nat := s.sth.TreeSize

/-- Modelled from the spec: `CollapsedTree` — representation of a Merkle tree
of size N storing only the hashes on its right spine, supporting `size()` in
O(log N); the merkletree package is not under src/.  The claims embedded here
use only its size. -/
structure CollapsedTree where
  nodes : List Hash
  size : Nat
deriving DecidableEq, Repr

/-- The `Size()` accessor of a CollapsedTree. -/
def CollapsedTree.Size (t : CollapsedTree) : Nat := t.size

/-- A log descriptor (loglist.Log); only the fields read by the embedded code
are carried.  The loglist package is not under src/. -/
structure Log where
  URL : String
  MonitoringURL : String
deriving DecidableEq, Repr

/-- The `GetMonitoringURL()` accessor used by the current healthcheck.go
(modelled as the carried monitoring URL; its body is not under src/). -/
def Log.GetMonitoringURL (l : Log) : String := l.MonitoringURL

/-- The per-log persisted state (struct LogState of the monitor package, with
json tags download_position, verified_position, verified_sth, last_success).
The positions are present in every state the monitor persists (per the data
model of the spec, `verified_sth` alone may be absent), so the two
CollapsedTree pointers are modelled as always non-nil. -/
structure LogState where
  DownloadPosition : CollapsedTree
  VerifiedPosition : CollapsedTree
  VerifiedSTH : Option SignedTreeHead
  LastSuccess : Time
deriving DecidableEq, Repr

/-- The subset of Config read by healthCheckLog. -/
structure Config where
  HealthCheckInterval : Duration
deriving Repr

/-- Health-check failure payload: log unreachable since LastSuccess
(StaleSTHInfo of healthcheck.go; LatestSTH may be nil). -/
structure StaleSTHInfo where
  Log : Log
  LastSuccess : Time
  LatestSTH : Option SignedTreeHead
deriving DecidableEq, Repr

/-- Health-check failure payload: download position trails the newest stored
STH (BacklogInfo of healthcheck.go; LatestSTH is a Go pointer, hence Option). -/
structure BacklogInfo where
  Log : Log
  LatestSTH : Option StoredSTH
  Position : Nat
deriving DecidableEq, Repr

/-- Health-check failure payload: the log list could not be refreshed
(StaleLogListInfo of healthcheck.go). -/
structure StaleLogListInfo where
  Source : String
  LastSuccess : Time
  LastError : String
  LastErrorTime : Time
deriving DecidableEq, Repr

/-- The HealthCheckFailure interface of healthcheck.go, as the tagged variant
of its three implementations. -/
inductive HealthCheckFailure where
  | stale (info : StaleSTHInfo)
  | backlog (info : BacklogInfo)
  | staleLogList (info : StaleLogListInfo)
deriving DecidableEq, Repr

/-- A pure snapshot of the StateProvider behavior observed during one
healthCheckLog call: what LoadLogState and LoadSTHs return for this log, and
whether NotifyHealthCheckFailure would fail (none = it returns nil). -/
structure StateData where
  logState : Except String (Option LogState)
  sths : Except String (List StoredSTH)
  notifyErr : Option String

/-- The tail of healthCheckLog (healthcheck.go lines 48-73): load the stored
STHs and emit a StaleSTHInfo when none are stored, otherwise a BacklogInfo
carrying the last stored STH and the download position.  Returns the Go error
result together with the list of notifications passed to
NotifyHealthCheckFailure. -/
def healthCheckNotify (ctlog : Log) (st : StateData)
    (position : Nat) (lastSuccess : Time) (verifiedSTH : Option SignedTreeHead) :
    Except String Unit × List HealthCheckFailure :=
  match st.sths with
  | .error e => (.error ("error loading STHs: " ++ e), [])
  | .ok [] =>
    let info : StaleSTHInfo := ⟨ctlog, lastSuccess, verifiedSTH⟩
    match st.notifyErr with
    | some e => (.error ("error notifying about stale STH: " ++ e), [.stale info])
    | none => (.ok (), [.stale info])
  | .ok (s :: rest) =>
    let info : BacklogInfo := ⟨ctlog, some (rest.getLastD s), position⟩
    match st.notifyErr with
    | some e => (.error ("error notifying about backlog: " ++ e), [.backlog info])
    | none => (.ok (), [.backlog info])

/-- healthCheckLog of src/monitor/healthcheck.go, evaluated at clock instant
`now`.  The three locals position, lastSuccess, verifiedSTH start at their Go
zero values and are overwritten only when a LogState is stored; a stored
state whose last_success is within HealthCheckInterval short-circuits with
nil.  `rest.getLastD s` is `sths[len(sths)-1]` for the non-empty slice
`s :: rest`. -/
def healthCheckLog (now : Time) (config : Config) (ctlog : Log) (st : StateData) :
    Except String Unit × List HealthCheckFailure :=
  match st.logState with
  | .error e => (.error ("error loading log state: " ++ e), [])
  | .ok (some state) =>
    if now - state.LastSuccess < config.HealthCheckInterval then
      (.ok (), [])
    else
      healthCheckNotify ctlog st state.DownloadPosition.Size state.LastSuccess state.VerifiedSTH
  | .ok none => healthCheckNotify ctlog st 0 0 none

/-- LastSuccessString of StaleSTHInfo: "never" for the Go zero time, else the
rendered time (time.Time.String is abstracted by toString of the instant). -/
def StaleSTHInfo.LastSuccessString (e : StaleSTHInfo) : String :=
  if e.LastSuccess = 0 then "never" else toString e.LastSuccess

/-- Backlog of BacklogInfo: `e.LatestSTH.TreeSize - e.Position` in Go uint64
arithmetic.  The Go receiver dereferences the LatestSTH pointer
unconditionally; the nil case (a Go panic) is `none`. -/
def BacklogInfo.Backlog (e : BacklogInfo) : Option Nat :=
  e.LatestSTH.map fun latest => sub64 latest.TreeSize e.Position

/-- Summary of StaleSTHInfo (healthcheck.go line 112). -/
def StaleSTHInfo.Summary (e : StaleSTHInfo) : String :=
  "Unable to contact " ++ e.Log.GetMonitoringURL ++ " since " ++ e.LastSuccessString

/-- Summary of BacklogInfo (healthcheck.go line 115); dereferences LatestSTH
through Backlog, so it is none when LatestSTH is nil. -/
def BacklogInfo.SummaryQ (e : BacklogInfo) : Option String :=
  e.Backlog.map fun b =>
    "Backlog of size " ++ toString b ++ " from " ++ e.Log.GetMonitoringURL

/-- Text of StaleSTHInfo (healthcheck.go line 134): total, with an explicit
branch for a nil LatestSTH. -/
def StaleSTHInfo.Text (e : StaleSTHInfo) : String :=
  "certspotter has been unable to contact " ++ e.Log.GetMonitoringURL ++ " since "
    ++ e.LastSuccessString
    ++ ". Consequentially, certspotter may fail to notify you about certificates in this log.\n"
    ++ "\n"
    ++ "For details, enable -verbose and see certspotter stderr output.\n"
    ++ "\n"
    ++ (match e.LatestSTH with
        | some sth => "Latest known log size = " ++ toString sth.TreeSize ++ "\n"
        | none => "Latest known log size = none\n")

/-- Text of BacklogInfo (healthcheck.go line 147): dereferences LatestSTH
unconditionally (for the tree size, the stored-at time and the backlog), so
it is none when LatestSTH is nil. -/
def BacklogInfo.TextQ (e : BacklogInfo) : Option String :=
  e.LatestSTH.bind fun latest =>
    e.Backlog.map fun b =>
      "certspotter has been unable to download entries from " ++ e.Log.GetMonitoringURL
        ++ " in a timely manner. Consequentially, certspotter may be slow to notify you about certificates in this log.\n"
        ++ "\n"
        ++ "For details, enable -verbose and see certspotter stderr output.\n"
        ++ "\n"
        ++ "Current log size = " ++ toString latest.TreeSize ++ " (as of "
        ++ toString latest.StoredAt ++ ")\n"
        ++ "Current position = " ++ toString e.Position ++ "\n"
        ++ "         Backlog = " ++ toString b ++ "\n"

/-- BacklogInfo of the older healthcheck.go revision (src/unnamed/part_004):
its LatestSTH is a plain `*ct.SignedTreeHead`, not a StoredSTH. -/
structure BacklogInfoOld where
  Log : Log
  LatestSTH : Option SignedTreeHead
  Position : Nat
deriving DecidableEq, Repr

/-- The HealthCheckFailure variants of the older revision (StaleSTHInfo has
the same shape in both revisions and is shared). -/
inductive HealthCheckFailureOld where
  | stale (info : StaleSTHInfo)
  | backlog (info : BacklogInfoOld)
  | staleLogList (info : StaleLogListInfo)
deriving DecidableEq, Repr

/-- StateProvider snapshot for the older revision, whose LoadSTHs returns
plain SignedTreeHeads. -/
structure StateDataOld where
  logState : Except String (Option LogState)
  sths : Except String (List SignedTreeHead)
  notifyErr : Option String

/-- The tail of the older healthCheckLog (src/unnamed/part_004 lines 39-62). -/
def healthCheckNotifyOld (ctlog : Log) (st : StateDataOld)
    (position : Nat) (lastSuccess : Time) (verifiedSTH : Option SignedTreeHead) :
    Except String Unit × List HealthCheckFailureOld :=
  match st.sths with
  | .error e => (.error ("error loading STHs: " ++ e), [])
  | .ok [] =>
    let info : StaleSTHInfo := ⟨ctlog, lastSuccess, verifiedSTH⟩
    match st.notifyErr with
    | some e => (.error ("error notifying about stale STH: " ++ e), [.stale info])
    | none => (.ok (), [.stale info])
  | .ok (s :: rest) =>
    let info : BacklogInfoOld := ⟨ctlog, some (rest.getLastD s), position⟩
    match st.notifyErr with
    | some e => (.error ("error notifying about backlog: " ++ e), [.backlog info])
    | none => (.ok (), [.backlog info])

/-- healthCheckLog of the older revision (src/unnamed/part_004 lines 27-65):
it returns nil as soon as no LogState is stored, and otherwise reads
position, last success and verified STH straight from the stored state. -/
def healthCheckLogOld (now : Time) (config : Config) (ctlog : Log) (st : StateDataOld) :
    Except String Unit × List HealthCheckFailureOld :=
  match st.logState with
  | .error e => (.error ("error loading log state: " ++ e), [])
  | .ok none => (.ok (), [])
  | .ok (some state) =>
    if now - state.LastSuccess < config.HealthCheckInterval then
      (.ok (), [])
    else
      healthCheckNotifyOld ctlog st state.DownloadPosition.Size state.LastSuccess state.VerifiedSTH

/-- The observable content of one health-check notification, common to both
revisions: which variant was emitted and the data it carries (a StoredSTH is
observed through its embedded SignedTreeHead). -/
inductive HCNotifView where
  | stale (lastSuccess : Time) (latest : Option SignedTreeHead)
  | backlog (latest : Option SignedTreeHead) (position : Nat)
  | staleLogList (info : StaleLogListInfo)
deriving DecidableEq, Repr

/-- Observable view of a current-revision notification. -/
def HealthCheckFailure.view : HealthCheckFailure → HCNotifView
  | .stale i => .stale i.LastSuccess i.LatestSTH
  | .backlog i => .backlog (i.LatestSTH.map StoredSTH.sth) i.Position
  | .staleLogList i => .staleLogList i

/-- Observable view of an old-revision notification. -/
def HealthCheckFailureOld.view : HealthCheckFailureOld → HCNotifView
  | .stale i => .stale i.LastSuccess i.LatestSTH
  | .backlog i => .backlog i.LatestSTH i.Position
  | .staleLogList i => .staleLogList i

/-- A notification sink attempt, in the order notify tries them. -/
inductive SinkEvent where
  | stdoutText
  | stdoutJson
  | email
  | script
  | scriptDir
deriving DecidableEq, Repr

/-- The fixed position of each sink in the order notify visits them. -/
def SinkEvent.idx : SinkEvent → Nat
  | .stdoutText => 0
  | .stdoutJson => 1
  | .email => 2
  | .script => 3
  | .scriptDir => 4

/-- The sink configuration fields of FilesystemState read by its notify
method (the struct itself is defined outside src/; the field set is the one
notify.go reads: Stdout, Json, Email, Script, ScriptDir). -/
structure FilesystemState where
  Stdout : Bool
  Json : Bool
  Email : List String
  Script : String
  ScriptDir : String
deriving DecidableEq, Repr

/-- Outcome of the three fallible sink calls during one notify run: the error
each of sendEmail, execScript and execScriptDir would return if attempted
(none = nil).  Stdout writes return no error. -/
structure NotifyEnv where
  emailErr : Option String
  scriptErr : Option String
  scriptDirErr : Option String
deriving DecidableEq, Repr

/-- The error the environment assigns to a sink attempt (stdout writes
cannot fail). -/
def NotifyEnv.sinkErr (env : NotifyEnv) : SinkEvent → Option String
  | .email => env.emailErr
  | .script => env.scriptErr
  | .scriptDir => env.scriptDirErr
  | _ => none

/-- Whether a given sink is configured on in this FilesystemState, per the
guards of notify.go: plain stdout iff Stdout and not Json, JSON stdout iff
Json, email iff the recipient list is non-empty, script and script-dir iff
their paths are non-empty. -/
def FilesystemState.sinkOn (s : FilesystemState) : SinkEvent → Bool
  | .stdoutText => s.Stdout && !s.Json
  | .stdoutJson => s.Json
  | .email => decide (0 < s.Email.length)
  | .script => decide (s.Script ≠ "")
  | .scriptDir => decide (s.ScriptDir ≠ "")

/-- Third stage of notify (notify.go lines 59-65): the script-dir sink. -/
def notifyScriptDir (s : FilesystemState) (env : NotifyEnv) (tr : List SinkEvent) :
    Option String × List SinkEvent :=
  if s.ScriptDir ≠ "" then
    match env.scriptDirErr with
    | some e => (some e, tr ++ [.scriptDir])
    | none => (none, tr ++ [.scriptDir])
  else (none, tr)

/-- Second stage of notify (notify.go lines 53-57): the script sink, then the
script-dir sink. -/
def notifyScript (s : FilesystemState) (env : NotifyEnv) (tr : List SinkEvent) :
    Option String × List SinkEvent :=
  if s.Script ≠ "" then
    match env.scriptErr with
    | some e => (some e, tr ++ [.script])
    | none => notifyScriptDir s env (tr ++ [.script])
  else notifyScriptDir s env tr

/-- notify of src/monitor/notify.go (lines 40-66), as the Go error it returns
(none = nil) together with the ordered list of sink attempts it performed:
stdout (plain text when Stdout is set and Json is not, JSON when Json is
set), then email, then script, then script-dir, returning the first sink
error immediately. -/
def FilesystemState.notify (s : FilesystemState) (env : NotifyEnv) :
    Option String × List SinkEvent :=
  let tr0 : List SinkEvent :=
    if s.Stdout && !s.Json then [.stdoutText]
    else if s.Json then [.stdoutJson]
    else []
  if 0 < s.Email.length then
    match env.emailErr with
    | some e => (some e, tr0 ++ [.email])
    | none => notifyScript s env (tr0 ++ [.email])
  else notifyScript s env tr0

/-- The error classes cmd.Run() can return: an exec.ExitError (with exit code
and whether the process exited, as opposed to being killed by a signal), or
any other error. -/
inductive CmdErr where
  | exit (code : Int) (exited : Bool)
  | other (msg : String)
deriving DecidableEq, Repr

/-- The error-selection logic at the end of sendEmail (notify.go lines
115-123), given the result of sendmail.Run() and of ctx.Err() at that point:
nil on success; the context error verbatim when the context is cancelled; a
wrapped sendmail-failure message otherwise. -/
def sendEmailResult (toAddrs : List String) (stderr : String)
    (runErr : Option CmdErr) (ctxErr : Option String) : Option String :=
  match runErr with
  | none => none
  | some e =>
    match ctxErr with
    | some c => some c
    | none =>
      match e with
      | .exit code true =>
        some ("error sending email to " ++ toString toAddrs ++ ": sendmail failed with exit code "
          ++ toString code ++ " and error " ++ stderr)
      | .exit _ false =>
        some ("error sending email to " ++ toString toAddrs ++ ": " ++ "signal: killed")
      | .other msg => some ("error sending email to " ++ toString toAddrs ++ ": " ++ msg)

/-- The error-selection logic at the end of execScript (notify.go lines
134-144), given the result of cmd.Run() and of ctx.Err() at that point:
nil on success; the context error verbatim when the context is cancelled;
a wrapped script-failure message otherwise (exited with code, killed by
signal, or any other execution error). -/
def execScriptResult (scriptName : String) (stderr : String)
    (runErr : Option CmdErr) (ctxErr : Option String) : Option String :=
  match runErr with
  | none => none
  | some e =>
    match ctxErr with
    | some c => some c
    | none =>
      match e with
      | .exit code true =>
        some ("script " ++ scriptName ++ " exited with code " ++ toString code
          ++ " and error " ++ stderr)
      | .exit _ false =>
        some ("script " ++ scriptName ++ " terminated by signal with error " ++ stderr)
      | .other msg => some ("error executing script: " ++ msg)

/-- An event on the stdout mutex: acquiring stdoutMu, releasing it, or
writing to stdout (text body or JSON line) while the program runs. -/
inductive MuEv where
  | lock
  | unlock
  | write (json : Bool)
deriving DecidableEq, Repr

/-- The event trace of writeToStdout (notify.go lines 79-83): acquire
stdoutMu, write the text body, release (deferred unlock). -/
def writeToStdoutTrace : List MuEv := [.lock, .write false, .unlock]

/-- The event trace of writeJsonToStdout (notify.go lines 67-77): acquire
stdoutMu, emit the JSON line, release (deferred unlock). -/
def writeJsonToStdoutTrace : List MuEv := [.lock, .write true, .unlock]

/-- Checks that a trace uses the mutex correctly starting from holding state
`held`, and that every write happens while the mutex is held. -/
def muGuarded : Bool → List MuEv → Bool
  | _, [] => true
  | held, .lock :: r => !held && muGuarded true r
  | held, .unlock :: r => held && muGuarded false r
  | held, .write _ :: r => held && muGuarded held r

/-- All interleavings of two lists (order within each list preserved),
computed with explicit fuel so that it reduces by structural recursion; the
fuel is always sufficient when it is at least the summed length. -/
def interleavingsF : Nat → List α → List α → List (List α)
  | 0, xs, ys => [xs ++ ys]
  | _ + 1, [], ys => [ys]
  | _ + 1, x :: xs, [] => [x :: xs]
  | n + 1, x :: xs, y :: ys =>
    (interleavingsF n xs (y :: ys)).map (x :: ·) ++
      (interleavingsF n (x :: xs) ys).map (y :: ·)

/-- All interleavings of two lists (order within each list preserved). -/
def interleavings (xs ys : List α) : List (List α) :=
  interleavingsF (xs.length + ys.length) xs ys

/-- Checks that a schedule of (thread id, event) pairs respects the mutex:
lock only succeeds when no thread holds it, unlock and write only by the
holder.  `holder` is the thread currently holding stdoutMu, if any. -/
def muValid : Option Nat → List (Nat × MuEv) → Bool
  | _, [] => true
  | none, (t, .lock) :: r => muValid (some t) r
  | some _, ((_, .lock) :: _) => false
  | some h, (t, .unlock) :: r => h == t && muValid none r
  | none, ((_, .unlock) :: _) => false
  | some h, (t, .write _) :: r => h == t && muValid (some h) r
  | none, ((_, .write _) :: _) => false

/-- Tags every event of a trace with a thread id. -/
def tagTrace (t : Nat) (tr : List MuEv) : List (Nat × MuEv) :=
  tr.map (fun e => (t, e))

/-- A JSON document, as produced by the Go encoding/json package for the
types at hand. -/
inductive Json where
  | null
  | str (s : String)
  | num (n : Int)
  | arr (xs : List Json)
  | obj (fields : List (String × Json))

/-- Modelled from the spec: hashes are serialized as (base64) JSON strings;
the marshalling code of the merkletree/cttypes packages is not under src/. -/
def encodeHash (h : Hash) : Json := .str h.val

/-- Inverse of encodeHash. -/
def decodeHash : Json → Option Hash
  | .str s => some ⟨s⟩
  | _ => none

/-- Decodes a JSON array of hash strings. -/
def decodeHashList : List Json → Option (List Hash)
  | [] => some []
  | j :: r =>
    match decodeHash j with
    | some h => (decodeHashList r).map (h :: ·)
    | none => none

/-- Encodes a Nat (a Go uint64) as a JSON number. -/
def encodeNat (n : Nat) : Json := .num (n : Int)

/-- Decodes a non-negative JSON number. -/
def decodeNat : Json → Option Nat
  | .num n => if 0 ≤ n then some n.toNat else none
  | _ => none

/-- Modelled from the spec: a CollapsedTree serializes as a self-describing
document of its node hashes and its size (the merkletree package with its
MarshalJSON is not under src/). -/
def encodeTree (t : CollapsedTree) : Json :=
  .obj [("nodes", .arr (t.nodes.map encodeHash)), ("size", encodeNat t.size)]

/-- Inverse of encodeTree. -/
def decodeTree : Json → Option CollapsedTree
  | .obj [("nodes", .arr xs), ("size", sz)] =>
    match decodeHashList xs, decodeNat sz with
    | some nodes, some size => some ⟨nodes, size⟩
    | _, _ => none
  | _ => none

/-- Modelled from the spec: an STH serializes with its tree size, timestamp,
root hash and signature (the cttypes package is not under src/). -/
def encodeSTH (s : SignedTreeHead) : Json :=
  .obj [("tree_size", encodeNat s.TreeSize), ("timestamp", encodeNat s.Timestamp),
        ("sha256_root_hash", encodeHash s.RootHash), ("tree_head_signature", .str s.Signature)]

/-- Inverse of encodeSTH. -/
def decodeSTH : Json → Option SignedTreeHead
  | .obj [("tree_size", ts), ("timestamp", tm), ("sha256_root_hash", rh), ("tree_head_signature", .str sig)] =>
    match decodeNat ts, decodeNat tm, decodeHash rh with
    | some n, some t, some h => some ⟨n, t, h, sig⟩
    | _, _, _ => none
  | _ => none

/-- A nil STH pointer serializes as JSON null. -/
def encodeOptSTH : Option SignedTreeHead → Json
  | none => .null
  | some s => encodeSTH s

/-- Inverse of encodeOptSTH. -/
def decodeOptSTH : Json → Option (Option SignedTreeHead)
  | .null => some none
  | j => (decodeSTH j).map some

/-- A time instant serializes as a JSON number (abstracting the RFC3339
string Go uses; the rendering is injective on instants either way). -/
def encodeTime (t : Time) : Json := .num t

/-- Inverse of encodeTime. -/
def decodeTime : Json → Option Time
  | .num n => some n
  | _ => none

/-- Modelled from the spec: serialization of LogState as a self-describing
document with its four json-tagged fields (download_position,
verified_position, verified_sth, last_success), per the persisted-state
schema of the spec; the Go marshalling itself lives outside src/. -/
def serializeLogState (st : LogState) : Json :=
  .obj [("download_position", encodeTree st.DownloadPosition),
        ("verified_position", encodeTree st.VerifiedPosition),
        ("verified_sth", encodeOptSTH st.VerifiedSTH),
        ("last_success", encodeTime st.LastSuccess)]

/-- Modelled from the spec: deserialization of the LogState document. -/
def deserializeLogState : Json → Option LogState
  | .obj [("download_position", dp), ("verified_position", vp),
          ("verified_sth", vs), ("last_success", ls)] =>
    match decodeTree dp, decodeTree vp, decodeOptSTH vs, decodeTime ls with
    | some a, some b, some c, some d => some ⟨a, b, c, d⟩
    | _, _, _, _ => none
  | _ => none

/-- A sample log descriptor for concrete instantiations. -/
def logA : Log := ⟨"https://log.example/2026/", "https://log.example/2026/"⟩

/-- A sample signed tree head of size 100. -/
def sth1 : SignedTreeHead := ⟨100, 17, ⟨"cm9vdA=="⟩, "c2lnMQ=="⟩

/-- A sample stored STH. -/
def ssth1 : StoredSTH := ⟨sth1, 6⟩

/-- A sample collapsed tree of size 90. -/
def treeA : CollapsedTree := ⟨[⟨"bm9kZQ=="⟩], 90⟩

/-- A sample persisted log state whose last success is the zero time. -/
def stateA : LogState := ⟨treeA, treeA, some sth1, 0⟩

/-- A sample configuration with a health-check interval of 5. -/
def cfgA : Config := ⟨5⟩

/-- C1: for a log whose persisted LogState has last_success older than
HealthCheckInterval, one healthCheckLog call emits exactly one health-check
notification: a StaleSTHInfo exactly when the stored-STH set loaded via
LoadSTHs is empty, and a BacklogInfo exactly when it is non-empty — never
both. -/
theorem healthCheckLog_stale_emits_exactly_one
    (now : Time) (config : Config) (ctlog : Log) (state : LogState)
    (sths : List StoredSTH) (nerr : Option String)
    (hstale : ¬ now - state.LastSuccess < config.HealthCheckInterval) :
    (healthCheckLog now config ctlog ⟨.ok (some state), .ok sths, nerr⟩).2.length = 1 ∧
    (sths = [] ↔ ∃ i, (healthCheckLog now config ctlog ⟨.ok (some state), .ok sths, nerr⟩).2
      = [HealthCheckFailure.stale i]) ∧
    (sths ≠ [] ↔ ∃ i, (healthCheckLog now config ctlog ⟨.ok (some state), .ok sths, nerr⟩).2
      = [HealthCheckFailure.backlog i]) := by
  have hred : healthCheckLog now config ctlog ⟨.ok (some state), .ok sths, nerr⟩
      = healthCheckNotify ctlog ⟨.ok (some state), .ok sths, nerr⟩
          state.DownloadPosition.Size state.LastSuccess state.VerifiedSTH := by
    simp [healthCheckLog, hstale]
  rw [hred]
  cases sths with
  | nil => cases nerr <;> simp [healthCheckNotify]
  | cons s rest => cases nerr <;> simp [healthCheckNotify]

/-- Witness for C1 at a concrete stale state with one stored STH. -/
theorem healthCheckLog_stale_emits_exactly_one_w :
    (¬ (10 : Time) - stateA.LastSuccess < cfgA.HealthCheckInterval) ∧
    ((healthCheckLog 10 cfgA logA ⟨.ok (some stateA), .ok [ssth1], none⟩).2.length = 1 ∧
     ([ssth1] = ([] : List StoredSTH) ↔
       ∃ i, (healthCheckLog 10 cfgA logA ⟨.ok (some stateA), .ok [ssth1], none⟩).2
         = [HealthCheckFailure.stale i]) ∧
     ([ssth1] ≠ ([] : List StoredSTH) ↔
       ∃ i, (healthCheckLog 10 cfgA logA ⟨.ok (some stateA), .ok [ssth1], none⟩).2
         = [HealthCheckFailure.backlog i])) :=
  ⟨by decide,
   healthCheckLog_stale_emits_exactly_one 10 cfgA logA stateA [ssth1] none (by decide)⟩

/-- C3: for a log whose persisted LogState has last_success within
HealthCheckInterval of now, healthCheckLog returns nil, emits no health-check
notification, and never consults the stored STHs (the result is the same for
every LoadSTHs outcome, including a failing one) nor
NotifyHealthCheckFailure. -/
theorem healthCheckLog_fresh_skips
    (now : Time) (config : Config) (ctlog : Log) (state : LogState)
    (h : now - state.LastSuccess < config.HealthCheckInterval) :
    ∀ (sthsRes : Except String (List StoredSTH)) (nerr : Option String),
      healthCheckLog now config ctlog ⟨.ok (some state), sthsRes, nerr⟩ = (.ok (), []) := by
  intro sthsRes nerr
  simp [healthCheckLog, h]

/-- Witness for C3 at a concrete healthy state, with a LoadSTHs that would
fail and a NotifyHealthCheckFailure that would fail were either consulted. -/
theorem healthCheckLog_fresh_skips_w :
    ((1 : Time) - stateA.LastSuccess < cfgA.HealthCheckInterval) ∧
    healthCheckLog 1 cfgA logA ⟨.ok (some stateA), .error "disk failure", some "notify failure"⟩
      = (.ok (), []) :=
  ⟨by decide, healthCheckLog_fresh_skips 1 cfgA logA stateA (by decide) _ _⟩

/-- C8: when no LogState is stored (LoadLogState returns nil), healthCheckLog
still performs the health check with the zero values: it emits exactly one
notification, a StaleSTHInfo with the zero LastSuccess (rendered "never" by
LastSuccessString) and a nil LatestSTH when no STHs are stored, and a
BacklogInfo with Position 0 carrying the last stored STH otherwise. -/
theorem healthCheckLog_no_state_still_checks
    (now : Time) (config : Config) (ctlog : Log) (sths : List StoredSTH)
    (nerr : Option String) :
    (healthCheckLog now config ctlog ⟨.ok none, .ok sths, nerr⟩).2.length = 1 ∧
    (sths = [] →
      (healthCheckLog now config ctlog ⟨.ok none, .ok sths, nerr⟩).2
        = [HealthCheckFailure.stale ⟨ctlog, 0, none⟩] ∧
      StaleSTHInfo.LastSuccessString ⟨ctlog, 0, none⟩ = "never") ∧
    (∀ s rest, sths = s :: rest →
      (healthCheckLog now config ctlog ⟨.ok none, .ok sths, nerr⟩).2
        = [HealthCheckFailure.backlog ⟨ctlog, some (rest.getLastD s), 0⟩]) := by
  cases sths <;> cases nerr <;>
    simp [healthCheckLog, healthCheckNotify, StaleSTHInfo.LastSuccessString]

/-- C6: when the cancellation context is cancelled while the sendmail or
notification-script subprocess is running (cmd.Run fails and ctx.Err is
non-nil), sendEmail and execScript return the context error itself, not a
wrapped command-failure error. -/
theorem sendmail_script_cancellation_bubbles
    (toAddrs : List String) (stderr : String) (scriptName : String)
    (e : CmdErr) (c : String) :
    sendEmailResult toAddrs stderr (some e) (some c) = some c ∧
    execScriptResult scriptName stderr (some e) (some c) = some c :=
  ⟨rfl, rfl⟩

/-- Decoding a list of encoded hashes recovers the list. -/
theorem decodeHashList_encodeHash (l : List Hash) :
    decodeHashList (l.map encodeHash) = some l := by
  induction l with
  | nil => rfl
  | cons h t ih => simp [decodeHashList, decodeHash, encodeHash, ih]

/-- C7: serializing a LogState to JSON and deserializing the result is the
identity, for every LogState value. -/
theorem logState_serialize_roundtrip (st : LogState) :
    deserializeLogState (serializeLogState st) = some st := by
  rcases st with ⟨⟨n1, s1⟩, ⟨n2, s2⟩, vs, ls⟩
  cases vs <;>
    simp [serializeLogState, deserializeLogState, encodeTree, decodeTree,
      encodeNat, decodeNat, encodeSTH, decodeSTH, encodeOptSTH, decodeOptSTH,
      encodeTime, decodeTime, decodeHashList_encodeHash, encodeHash, decodeHash]

/-- Go uint64 subtraction agrees with Nat subtraction when it does not wrap
and the minuend is a genuine uint64 value. -/
theorem sub64_eq_sub (a b : Nat) (h1 : b ≤ a) (h2 : a < 2 ^ 64) :
    sub64 a b = a - b := by
  unfold sub64
  have h64 : (2 : Nat) ^ 64 = 18446744073709551616 := by norm_num
  rw [h64]
  rw [h64] at h2
  omega

/-- The default-last element of a list is the head default or one of the
elements. -/
theorem getLastD_mem_cons {α : Type} : ∀ (l : List α) (d : α), l.getLastD d ∈ d :: l
  | [], _ => by simp [List.getLastD]
  | e :: t, d => by
    rw [List.getLastD_cons]
    exact List.mem_cons_of_mem d (getLastD_mem_cons t e)

/-- In a list sorted ascending under a Nat measure, the last element carries
the greatest measure. -/
theorem pairwise_le_getLastD {α : Type} (f : α → Nat) :
    ∀ (l : List α) (d : α), List.Pairwise (fun a b => f a ≤ f b) (d :: l) →
      ∀ x ∈ d :: l, f x ≤ f (l.getLastD d) := by
  intro l
  induction l with
  | nil =>
    intro d _ x hx
    simp only [List.mem_singleton] at hx
    subst hx
    simp [List.getLastD]
  | cons e t ih =>
    intro d hp x hx
    rw [List.getLastD_cons]
    rcases List.pairwise_cons.mp hp with ⟨hd, hp2⟩
    rcases List.mem_cons.mp hx with rfl | hx2
    · exact hd _ (getLastD_mem_cons t e)
    · exact ih e hp2 x hx2

/-- C2: for a stale log with at least one stored STH, the emitted BacklogInfo
carries Position equal to the persisted DownloadPosition.Size and LatestSTH
equal to the last stored STH; when the stored STHs are sorted ascending by
tree size that last STH has the greatest tree size; and Backlog() is
LatestSTH.TreeSize minus Position (uint64 subtraction, which is the plain
gap whenever the position does not exceed the tree size). -/
theorem healthCheckLog_backlog_fields
    (now : Time) (config : Config) (ctlog : Log) (state : LogState)
    (s : StoredSTH) (rest : List StoredSTH) (nerr : Option String)
    (hstale : ¬ now - state.LastSuccess < config.HealthCheckInterval) :
    (healthCheckLog now config ctlog ⟨.ok (some state), .ok (s :: rest), nerr⟩).2
      = [HealthCheckFailure.backlog ⟨ctlog, some (rest.getLastD s), state.DownloadPosition.Size⟩] ∧
    (List.Pairwise (fun a b : StoredSTH => a.TreeSize ≤ b.TreeSize) (s :: rest) →
      ∀ x ∈ s :: rest, x.TreeSize ≤ (rest.getLastD s).TreeSize) ∧
    BacklogInfo.Backlog ⟨ctlog, some (rest.getLastD s), state.DownloadPosition.Size⟩
      = some (sub64 (rest.getLastD s).TreeSize state.DownloadPosition.Size) ∧
    (state.DownloadPosition.Size ≤ (rest.getLastD s).TreeSize →
      (rest.getLastD s).TreeSize < 2 ^ 64 →
      BacklogInfo.Backlog ⟨ctlog, some (rest.getLastD s), state.DownloadPosition.Size⟩
        = some ((rest.getLastD s).TreeSize - state.DownloadPosition.Size)) := by
  refine ⟨?_, ?_, ?_, ?_⟩
  · have hred : healthCheckLog now config ctlog ⟨.ok (some state), .ok (s :: rest), nerr⟩
        = healthCheckNotify ctlog ⟨.ok (some state), .ok (s :: rest), nerr⟩
            state.DownloadPosition.Size state.LastSuccess state.VerifiedSTH := by
      simp [healthCheckLog, hstale]
    rw [hred]
    cases nerr <;> simp [healthCheckNotify]
  · intro hp x hx
    exact pairwise_le_getLastD StoredSTH.TreeSize rest s hp x hx
  · simp [BacklogInfo.Backlog]
  · intro h1 h2
    have hb : BacklogInfo.Backlog ⟨ctlog, some (rest.getLastD s), state.DownloadPosition.Size⟩
        = some (sub64 (rest.getLastD s).TreeSize state.DownloadPosition.Size) := rfl
    rw [hb, sub64_eq_sub _ _ h1 h2]

/-- Witness for C2 at a concrete stale state with a single stored STH of tree
size 100 against download position 90. -/
theorem healthCheckLog_backlog_fields_w :
    (¬ (10 : Time) - stateA.LastSuccess < cfgA.HealthCheckInterval) ∧
    ((healthCheckLog 10 cfgA logA ⟨.ok (some stateA), .ok [ssth1], none⟩).2
      = [HealthCheckFailure.backlog ⟨logA, some (List.getLastD [] ssth1), stateA.DownloadPosition.Size⟩] ∧
    (List.Pairwise (fun a b : StoredSTH => a.TreeSize ≤ b.TreeSize) [ssth1] →
      ∀ x ∈ [ssth1], x.TreeSize ≤ (List.getLastD [] ssth1).TreeSize) ∧
    BacklogInfo.Backlog ⟨logA, some (List.getLastD [] ssth1), stateA.DownloadPosition.Size⟩
      = some (sub64 (List.getLastD [] ssth1).TreeSize stateA.DownloadPosition.Size) ∧
    (stateA.DownloadPosition.Size ≤ (List.getLastD [] ssth1).TreeSize →
      (List.getLastD [] ssth1).TreeSize < 2 ^ 64 →
      BacklogInfo.Backlog ⟨logA, some (List.getLastD [] ssth1), stateA.DownloadPosition.Size⟩
        = some ((List.getLastD [] ssth1).TreeSize - stateA.DownloadPosition.Size))) :=
  ⟨by decide,
   healthCheckLog_backlog_fields 10 cfgA logA stateA ssth1 [] none (by decide)⟩

/-- Any BacklogInfo passed to NotifyHealthCheckFailure by the LoadSTHs tail
of healthCheckLog carries a present LatestSTH. -/
theorem backlog_in_notify (ctlog : Log) (st : StateData) (pos : Nat)
    (ls : Time) (vs : Option SignedTreeHead) (b : BacklogInfo)
    (h : HealthCheckFailure.backlog b ∈ (healthCheckNotify ctlog st pos ls vs).2) :
    b.LatestSTH.isSome = true := by
  obtain ⟨lsr, sthsr, nerr⟩ := st
  cases sthsr with
  | error e => simp [healthCheckNotify] at h
  | ok sths =>
    cases sths with
    | nil => cases nerr <;> simp [healthCheckNotify] at h
    | cons x xs => cases nerr <;> simp [healthCheckNotify] at h <;> simp [h]

/-- C9: every BacklogInfo emitted by healthCheckLog has a present (non-nil)
LatestSTH, and consequently its Backlog, Summary and Text methods — which
dereference LatestSTH unconditionally — are all defined on it. -/
theorem healthCheckLog_backlog_never_nil
    (now : Time) (config : Config) (ctlog : Log) (st : StateData) (b : BacklogInfo)
    (hmem : HealthCheckFailure.backlog b ∈ (healthCheckLog now config ctlog st).2) :
    b.LatestSTH.isSome = true ∧ b.Backlog.isSome = true ∧
    b.SummaryQ.isSome = true ∧ b.TextQ.isSome = true := by
  obtain ⟨lsr, sthsr, nerr⟩ := st
  have hL : b.LatestSTH.isSome = true := by
    cases lsr with
    | error e => simp [healthCheckLog] at hmem
    | ok o =>
      cases o with
      | some state =>
        by_cases hf : now - state.LastSuccess < config.HealthCheckInterval
        · simp [healthCheckLog, hf] at hmem
        · simp only [healthCheckLog, hf, if_false] at hmem
          exact backlog_in_notify _ _ _ _ _ b hmem
      | none =>
        simp only [healthCheckLog] at hmem
        exact backlog_in_notify _ _ _ _ _ b hmem
  obtain ⟨l, hl⟩ := Option.isSome_iff_exists.mp hL
  refine ⟨hL, ?_, ?_, ?_⟩ <;>
    simp [BacklogInfo.Backlog, BacklogInfo.SummaryQ, BacklogInfo.TextQ, hl]

/-- Witness for C9 at a concrete stale state with one stored STH. -/
theorem healthCheckLog_backlog_never_nil_w :
    (HealthCheckFailure.backlog ⟨logA, some ssth1, 90⟩
      ∈ (healthCheckLog 10 cfgA logA ⟨.ok (some stateA), .ok [ssth1], none⟩).2) ∧
    ((⟨logA, some ssth1, 90⟩ : BacklogInfo).LatestSTH.isSome = true ∧
     (⟨logA, some ssth1, 90⟩ : BacklogInfo).Backlog.isSome = true ∧
     (⟨logA, some ssth1, 90⟩ : BacklogInfo).SummaryQ.isSome = true ∧
     (⟨logA, some ssth1, 90⟩ : BacklogInfo).TextQ.isSome = true) :=
  ⟨by decide,
   healthCheckLog_backlog_never_nil 10 cfgA logA ⟨.ok (some stateA), .ok [ssth1], none⟩
     ⟨logA, some ssth1, 90⟩ (by decide)⟩

/-- Taking the default-last element commutes with mapping. -/
theorem getLastD_map {α β : Type} (f : α → β) : ∀ (l : List α) (d : α),
    (l.map f).getLastD (f d) = f (l.getLastD d)
  | [], _ => rfl
  | e :: t, d => by
    rw [List.map_cons, List.getLastD_cons, List.getLastD_cons]
    exact getLastD_map f t e

/-- C4: on every log with a stored LogState, the old and the current
healthCheckLog agree: same returned error and, notification by notification,
the same variant with the same last-success, latest-STH and position data
(a StoredSTH observed through its embedded SignedTreeHead); when no LogState
is stored they differ — the old version returns nil with no notification,
the current one still emits exactly one notification. -/
theorem healthCheckLog_refines_old
    (now : Time) (config : Config) (ctlog : Log) (state : LogState)
    (sths : List StoredSTH) (nerr : Option String) :
    ((healthCheckLog now config ctlog ⟨.ok (some state), .ok sths, nerr⟩).1
      = (healthCheckLogOld now config ctlog
          ⟨.ok (some state), .ok (sths.map StoredSTH.sth), nerr⟩).1) ∧
    ((healthCheckLog now config ctlog ⟨.ok (some state), .ok sths, nerr⟩).2.map
        HealthCheckFailure.view
      = (healthCheckLogOld now config ctlog
          ⟨.ok (some state), .ok (sths.map StoredSTH.sth), nerr⟩).2.map
        HealthCheckFailureOld.view) ∧
    healthCheckLogOld now config ctlog ⟨.ok none, .ok (sths.map StoredSTH.sth), nerr⟩
      = (.ok (), []) ∧
    (healthCheckLog now config ctlog ⟨.ok none, .ok sths, nerr⟩).2.length = 1 := by
  by_cases hf : now - state.LastSuccess < config.HealthCheckInterval <;>
    cases sths <;> cases nerr <;>
      simp [healthCheckLog, healthCheckLogOld, healthCheckNotify, healthCheckNotifyOld,
        hf, HealthCheckFailure.view, HealthCheckFailureOld.view, getLastD_map]

/-- C10: both stdout writers are correctly guarded by stdoutMu — every write
event happens with the mutex held, starting from the free mutex — and in
every mutex-respecting interleaving of two concurrent stdout writers (text
with JSON, text with text, JSON with JSON) the two critical sections do not
interleave: one writer runs to completion before the other starts. -/
theorem stdout_writes_serialized :
    (muGuarded false writeToStdoutTrace = true ∧
     muGuarded false writeJsonToStdoutTrace = true) ∧
    ((interleavings (tagTrace 0 writeToStdoutTrace) (tagTrace 1 writeJsonToStdoutTrace)).all
      (fun sched => !muValid none sched ||
        decide (sched = tagTrace 0 writeToStdoutTrace ++ tagTrace 1 writeJsonToStdoutTrace ∨
          sched = tagTrace 1 writeJsonToStdoutTrace ++ tagTrace 0 writeToStdoutTrace)) = true) ∧
    ((interleavings (tagTrace 0 writeToStdoutTrace) (tagTrace 1 writeToStdoutTrace)).all
      (fun sched => !muValid none sched ||
        decide (sched = tagTrace 0 writeToStdoutTrace ++ tagTrace 1 writeToStdoutTrace ∨
          sched = tagTrace 1 writeToStdoutTrace ++ tagTrace 0 writeToStdoutTrace)) = true) ∧
    ((interleavings (tagTrace 0 writeJsonToStdoutTrace) (tagTrace 1 writeJsonToStdoutTrace)).all
      (fun sched => !muValid none sched ||
        decide (sched = tagTrace 0 writeJsonToStdoutTrace ++ tagTrace 1 writeJsonToStdoutTrace ∨
          sched = tagTrace 1 writeJsonToStdoutTrace ++ tagTrace 0 writeJsonToStdoutTrace)) = true) := by
  decide

/-- A property of sink events holds universally iff it holds on each of the
five sinks. -/
theorem forall_sink (P : SinkEvent → Prop) :
    (∀ ev, P ev) ↔
      (P .stdoutText ∧ P .stdoutJson ∧ P .email ∧ P .script ∧ P .scriptDir) := by
  constructor
  · intro h
    exact ⟨h _, h _, h _, h _, h _⟩
  · intro h ev
    obtain ⟨a, b, c, d, e⟩ := h
    cases ev <;> assumption

set_option maxHeartbeats 4000000 in
/-- C5: notify visits its sinks in the fixed order stdout (plain text iff
Stdout is set and Json is not, JSON iff Json is set), email, script,
script-dir, each only when configured; on success every configured sink was
attempted, and on failure the returned error is exactly the error of the
last attempted sink, all earlier attempted sinks had succeeded (stdout
writes cannot fail), every configured sink up to the failing one was
attempted, and no later sink was attempted. -/
theorem notify_sink_order (s : FilesystemState) (env : NotifyEnv) :
    List.Chain' (fun a b => a.idx < b.idx) (s.notify env).2 ∧
    (∀ ev ∈ (s.notify env).2, s.sinkOn ev = true) ∧
    ((s.notify env).1 = none → ∀ ev, s.sinkOn ev = true → ev ∈ (s.notify env).2) ∧
    (∀ e, (s.notify env).1 = some e →
      ∃ ev, (s.notify env).2.getLast? = some ev ∧ env.sinkErr ev = some e ∧
        (∀ ev2 ∈ (s.notify env).2.dropLast, env.sinkErr ev2 = none) ∧
        (∀ ev2, s.sinkOn ev2 = true → ev2.idx ≤ ev.idx → ev2 ∈ (s.notify env).2) ∧
        (∀ ev2 ∈ (s.notify env).2, ev2.idx ≤ ev.idx)) := by
  rcases s with ⟨so, sj, em, sc, sd⟩
  rcases env with ⟨ee, se, de⟩
  by_cases hsc : sc = "" <;> by_cases hsd : sd = "" <;>
    cases so <;> cases sj <;> cases em <;> cases ee <;> cases se <;> cases de <;>
      simp_all [FilesystemState.notify, notifyScript, notifyScriptDir,
        FilesystemState.sinkOn, NotifyEnv.sinkErr, SinkEvent.idx, forall_sink]
